import Mathlib

/-!
Shallow embedding of the degradation/gradient synthesis engine of the
VLM_Generation_Programs repository.

Pixels are 8-bit channel values (`ℕ`, in range 0–255); floating-point
intermediates are modelled over `ℚ`.  Stochastic draws (numpy normal /
uniform / Poisson samples) are modelled as explicit oracle arguments, so
every transform is a pure function of the image, the parameters, and the
draws that numpy produced.
-/

namespace VLMGen

/-- `np.clip(x, 0, 255)`. -/
def clip255 (x : ℚ) : ℚ := max 0 (min 255 x)

/-- `np.clip(x, 0, 1)`. -/
def clip01 (x : ℚ) : ℚ := max 0 (min 1 x)

/-- `np.clip(x, 0, 255).astype(np.uint8)`: clamp to [0,255], then the cast
truncates the (now non-negative) float toward zero. -/
def toU8 (x : ℚ) : ℕ := (⌊clip255 x⌋).toNat

/-- A BGR pixel as stored by OpenCV (`image[:, :, 0]` = blue,
`[:, :, 1]` = green, `[:, :, 2]` = red). -/
structure BGR where
  b : ℕ
  g : ℕ
  r : ℕ
deriving DecidableEq, Repr

/-! ## `src/visual_degradation.py` -/

/-- Brightness factor of `VisualDegradationGenerator.degrade_brightness`
(`visual_degradation.py`, lines 70–76): darken for `level ≤ 50`,
brighten for `level > 50`. -/
def brightness_factor (level : ℕ) : ℚ :=
  if level ≤ 50 then 1 - ((level : ℚ) / 50) * (8/10)
  else 1 + (((level : ℚ) - 50) / 50) * (15/10)

/-- `degrade_brightness` per channel value: identity at level 0, otherwise
multiply by the factor, clip to [0,255] and cast to uint8. -/
def degrade_brightness (level : ℕ) (p : ℕ) : ℕ :=
  if level = 0 then p else toU8 ((p : ℚ) * brightness_factor level)

/-- `degrade_contrast` over the flat list of channel values of the image:
identity at level 0, otherwise `(pixels - mean) * factor + mean`,
clipped and cast. -/
def degrade_contrast (level : ℕ) (img : List ℕ) : List ℕ :=
  if level = 0 then img else
    let factor : ℚ := 1 - ((level : ℚ) / 100) * (99/100)
    let mean : ℚ := ((img.map (fun (p : ℕ) => (p : ℚ))).sum) / (img.length : ℚ)
    img.map (fun (p : ℕ) => toU8 (((p : ℚ) - mean) * factor + mean))

/-- `degrade_color_shift` per pixel (`visual_degradation.py`, lines 125–156):
identity at level 0, otherwise one of six channel-bias branches selected by
`level % 6`, with `shift_intensity = level / 100`; the whole float image is
then clipped and cast back to uint8. -/
def degrade_color_shift (level : ℕ) (px : BGR) : BGR :=
  if level = 0 then px else
    let t : ℚ := (level : ℚ) / 100
    let s := level % 6
    if s = 0 then
      ⟨toU8 (px.b : ℚ), toU8 ((px.g : ℚ) * (1 - t * (3/10))),
       toU8 ((px.r : ℚ) * (1 + t))⟩
    else if s = 1 then
      ⟨toU8 (px.b : ℚ), toU8 ((px.g : ℚ) * (1 + t)),
       toU8 ((px.r : ℚ) * (1 - t * (3/10)))⟩
    else if s = 2 then
      ⟨toU8 ((px.b : ℚ) * (1 + t)), toU8 ((px.g : ℚ) * (1 - t * (3/10))),
       toU8 (px.r : ℚ)⟩
    else if s = 3 then
      ⟨toU8 ((px.b : ℚ) * (1 - t * (5/10))), toU8 (px.g : ℚ),
       toU8 (px.r : ℚ)⟩
    else if s = 4 then
      ⟨toU8 (px.b : ℚ), toU8 (px.g : ℚ),
       toU8 ((px.r : ℚ) * (1 - t * (5/10)))⟩
    else
      ⟨toU8 (px.b : ℚ), toU8 ((px.g : ℚ) * (1 - t * (5/10))),
       toU8 (px.r : ℚ)⟩

/-- `cv2.resize(img, (W, H))` at the level of array dimensions: the result
has `rows = H`, `cols = W` and the channel count of the source. -/
def cvResizeDims (src : ℕ × ℕ × ℕ) (target : ℕ × ℕ) : ℕ × ℕ × ℕ :=
  (target.2, target.1, src.2.2)

/-- `degrade_resolution` at the level of array dimensions
(`visual_degradation.py`, lines 158–182): scale factor
`1 - (level/100)*0.95`, new sides `max(int(side*scale), 8)`, downsample to
`(new_w, new_h)` and upsample back to `(w, h)`. -/
def degrade_resolution_dims (level : ℕ) (dims : ℕ × ℕ × ℕ) : ℕ × ℕ × ℕ :=
  if level = 0 then dims else
    let h := dims.1
    let w := dims.2.1
    let scale : ℚ := 1 - ((level : ℚ) / 100) * (19/20)
    let nw : ℕ := max (⌊(w : ℚ) * scale⌋).toNat 8
    let nh : ℕ := max (⌊(h : ℚ) * scale⌋).toNat 8
    let down := cvResizeDims dims (nw, nh)
    cvResizeDims down (w, h)

/-! ## `src/noise_gradient_generator.py`

Each stochastic transform is embedded per channel value; the numpy draw for
that entry is an explicit argument (`z` for a standard-normal draw, `m` for
a uniform draw in [0,1), `k` for a Poisson count). -/

/-- `apply_gaussian_noise`: `clip(img + normal(0, intensity*50), 0, 255)`
cast to uint8; a draw from `normal(0, σ)` is `σ * z` with `z` standard
normal. -/
def apply_gaussian_noise (intensity : ℚ) (z : ℚ) (p : ℕ) : ℕ :=
  toU8 ((p : ℚ) + intensity * 50 * z)

/-- `apply_salt_pepper_noise`: entries whose uniform mask value is below
`intensity*0.05` become 255 (salt); entries whose mask value exceeds
`1 - intensity*0.05` become 0 (pepper, applied second). -/
def apply_salt_pepper_noise (intensity : ℚ) (m : ℚ) (p : ℕ) : ℕ :=
  let afterSalt : ℕ := if m < intensity * (5/100) then 255 else p
  if 1 - intensity * (5/100) < m then 0 else afterSalt

/-- `apply_poisson_noise`: `poisson(img * intensity * 0.1) / (intensity * 0.1)`,
then clip and cast.  `k` is the Poisson count drawn for this entry (its mean
is `p * intensity * 0.1`; a Poisson draw with mean 0 is 0).  When
`intensity * 0.1 = 0` the division is `0/0`, which numpy evaluates to NaN —
not a valid channel value — modelled here as `none`. -/
def apply_poisson_noise (intensity : ℚ) (k : ℕ) (_p : ℕ) : Option ℕ :=
  if intensity * (1/10) = 0 then none
  else some (toU8 ((k : ℚ) / (intensity * (1/10))))

/-- `apply_speckle_noise`: `img + img * (randn * intensity * 20) / 100`,
then clip and cast. -/
def apply_speckle_noise (intensity : ℚ) (z : ℚ) (p : ℕ) : ℕ :=
  toU8 ((p : ℚ) + (p : ℚ) * (z * intensity * 20) / 100)

/-- `PIL.ImageEnhance` factor application per channel value: the enhancer
blends toward the degenerate image, giving `channel * factor`, clamped to
[0,255] (the C cast truncates the non-negative float). -/
def pil_enhance (factor : ℚ) (p : ℕ) : ℕ := toU8 ((p : ℚ) * factor)

/-- `apply_brightness_variation`: brightness factor `0.3 + intensity * 1.4`
(so intensity 0 maps to factor 0.3, intensity 1 to 1.7). -/
def apply_brightness_variation (intensity : ℚ) (p : ℕ) : ℕ :=
  pil_enhance (3/10 + intensity * (14/10)) p

/-- `apply_contrast_variation` factor: `0.5 + intensity * 1.5`. -/
def contrast_variation_factor (intensity : ℚ) : ℚ := 5/10 + intensity * (15/10)

/-- `apply_saturation_variation` factor: `intensity * 2.0`. -/
def saturation_variation_factor (intensity : ℚ) : ℚ := intensity * 2

/-- `PIL.Image.resize` at the level of `image.size = (w, h)`: the result has
exactly the requested target size. -/
def pilResizeSize (_src : ℕ × ℕ) (target : ℕ × ℕ) : ℕ × ℕ := target

/-- `apply_pixelation` at the level of `image.size`
(`noise_gradient_generator.py`, lines 113–123): block size
`max(1, int(intensity * 50))`, shrink to `max(1, side // block)` with
nearest-neighbor, then resize back to the original size. -/
def apply_pixelation_size (intensity : ℚ) (size : ℕ × ℕ) : ℕ × ℕ :=
  let pixel_size : ℕ := max 1 (⌊intensity * 50⌋).toNat
  let small : ℕ × ℕ := (max 1 (size.1 / pixel_size), max 1 (size.2 / pixel_size))
  let resized := pilResizeSize size small
  pilResizeSize resized size

/-! ## `src/fast_noise_generator.py` -/

/-- `apply_noise_gradient`: `intensity = gradient_level / 99`, Gaussian noise
with standard deviation `intensity * 25`, clipped and cast. -/
def apply_noise_gradient (gradient_level : ℕ) (z : ℚ) (p : ℕ) : ℕ :=
  let intensity : ℚ := (gradient_level : ℚ) / 99
  toU8 ((p : ℚ) + intensity * 25 * z)

/-! ## `src/VLM_Comprehensive_Benchmark_scripts/colorblindness_scripts/colorblind_simulation.py` -/

/-- A pixel in normalized floating-point color space ([0,1] per channel,
RGB order as used by PIL). -/
structure Vec3 where
  x : ℚ
  y : ℚ
  z : ℚ
deriving DecidableEq, Repr

/-- A 3×3 color transform matrix, stored by rows. -/
structure Mat3 where
  r0 : Vec3
  r1 : Vec3
  r2 : Vec3
deriving DecidableEq, Repr

def dotv (a v : Vec3) : ℚ := a.x * v.x + a.y * v.y + a.z * v.z

/-- `np.dot(pixels, matrix.T)` for one pixel: each output component is the
matching matrix row dotted with the pixel. -/
def matApply (M : Mat3) (v : Vec3) : Vec3 := ⟨dotv M.r0 v, dotv M.r1 v, dotv M.r2 v⟩

/-- Basic protanopia matrix of `ColorBlindnessSimulator.__init__`. -/
def protanopia_matrix : Mat3 :=
  ⟨⟨0.56667, 0.43333, 0.00000⟩,
   ⟨0.55833, 0.44167, 0.00000⟩,
   ⟨0.00000, 0.24167, 0.75833⟩⟩

/-- Basic deuteranopia matrix. -/
def deuteranopia_matrix : Mat3 :=
  ⟨⟨0.62500, 0.37500, 0.00000⟩,
   ⟨0.70000, 0.30000, 0.00000⟩,
   ⟨0.00000, 0.30000, 0.70000⟩⟩

/-- Basic tritanopia matrix. -/
def tritanopia_matrix : Mat3 :=
  ⟨⟨0.95000, 0.05000, 0.00000⟩,
   ⟨0.00000, 0.43333, 0.56667⟩,
   ⟨0.00000, 0.47500, 0.52500⟩⟩

/-- Improved (Machado-derived) protanopia matrix. -/
def improved_protanopia : Mat3 :=
  ⟨⟨0.152286, 1.052583, -0.204868⟩,
   ⟨0.114503, 0.786281, 0.099216⟩,
   ⟨-0.003882, -0.048116, 1.051998⟩⟩

/-- Improved deuteranopia matrix. -/
def improved_deuteranopia : Mat3 :=
  ⟨⟨0.367322, 0.860646, -0.227968⟩,
   ⟨0.280085, 0.672501, 0.047413⟩,
   ⟨-0.011820, 0.042940, 0.968881⟩⟩

/-- Improved tritanopia matrix. -/
def improved_tritanopia : Mat3 :=
  ⟨⟨1.255528, -0.076749, -0.178779⟩,
   ⟨-0.078411, 0.930809, 0.147602⟩,
   ⟨0.004733, 0.691367, 0.303900⟩⟩

/-- The six dichromacy matrices held by `ColorBlindnessSimulator`. -/
def simulator_matrices : List Mat3 :=
  [protanopia_matrix, deuteranopia_matrix, tritanopia_matrix,
   improved_protanopia, improved_deuteranopia, improved_tritanopia]

/-- `apply_colorblindness_matrix` on one normalized pixel: apply the matrix,
blend with the original when `severity < 1.0`, and clip each component to
[0,1]. -/
def apply_colorblindness_pixel (M : Mat3) (severity : ℚ) (v : Vec3) : Vec3 :=
  let t := matApply M v
  let b : Vec3 :=
    if severity < 1 then
      ⟨(1 - severity) * v.x + severity * t.x,
       (1 - severity) * v.y + severity * t.y,
       (1 - severity) * v.z + severity * t.z⟩
    else t
  ⟨clip01 b.x, clip01 b.y, clip01 b.z⟩

/-- Whether a numpy array shape is a three-channel image, exactly as tested
by `apply_colorblindness_matrix`:
`len(original_shape) == 3 and original_shape[2] == 3`. -/
def threeChannelShape (shape : List ℕ) : Prop :=
  shape.length = 3 ∧ shape.getD 2 0 = 3

instance (shape : List ℕ) : Decidable (threeChannelShape shape) := by
  unfold threeChannelShape; infer_instance

/-- `apply_colorblindness_matrix` over a whole image, with the pixel data
given as a function from flat index to normalized pixel: a non-RGB shape
raises (`raise ValueError`, modelled as `Except.error "InvalidImageFormat"`),
otherwise every pixel is transformed. -/
def apply_colorblindness_matrix (shape : List ℕ) (M : Mat3) (severity : ℚ)
    (data : ℕ → Vec3) : Except String (List ℕ × (ℕ → Vec3)) :=
  if threeChannelShape shape then
    Except.ok (shape, fun i => apply_colorblindness_pixel M severity (data i))
  else Except.error "InvalidImageFormat"

/-! ## `ColorBlindnessEvaluator` (`src/VLM_Comprehensive_Benchmark_scripts/evaluation_framework.py`) -/

/-- `success` flag of one prediction step: `is_correct and is_confident`,
with the comparator `c` returning the two booleans for a step. -/
def stepSuccess (c : ℕ → Bool × Bool) (s : ℕ) : Bool := (c s).1 && (c s).2

/-- Severity of step `s` in a sequence of `n` gradient files:
`step / (len(gradient_files) - 1)`. -/
def stepSeverity (n s : ℕ) : ℚ := (s : ℚ) / ((n : ℚ) - 1)

/-- The ordered prediction list built by `evaluate_colorblind_sequence` over
`n` gradient steps with comparator `c`: each entry carries its severity and
its success flag. -/
def mkPredictions (c : ℕ → Bool × Bool) (n : ℕ) : List (ℚ × Bool) :=
  (List.range n).map (fun s => (stepSeverity n s, stepSuccess c s))

/-- `ColorBlindnessEvaluator.find_failure_threshold`: the severity of the
first prediction whose success flag is false; `1.0` if every prediction
succeeds. -/
def find_failure_threshold : List (ℚ × Bool) → ℚ
  | [] => 1
  | (sev, ok) :: rest => if ok then find_failure_threshold rest else sev

/-! ## `Complete50IllusionsGenerator.generate_gradient_variations`
(`src/complete_50_illusions_final.py`, lines 407–429)

For the internal indices the source picks `t` from one of five curve bands
(linear, exponential, logarithmic, sinusoidal, and a random beta(0.5, 0.5)
draw); the value the band produced is abstracted here as `curve i`, so the
endpoint behavior is established for every band, including the random one. -/

/-- Parameter assigned to gradient index `i`: the minimum at index 0, the
maximum at index `total - 1`, and otherwise the band value clamped to [0,1]
and mapped linearly into `[lo, hi]`. -/
def gradient_param (curve : ℕ → ℚ) (total : ℕ) (lo hi : ℚ) (i : ℕ) : ℚ :=
  if i = 0 then lo
  else if i = total - 1 then hi
  else lo + (hi - lo) * clip01 (curve i)

/-! ## Basic lemmas about the uint8 round trip -/

/-- An in-range channel value survives `clip + astype(uint8)` unchanged. -/
theorem toU8_coe (p : ℕ) (hp : p ≤ 255) : toU8 (p : ℚ) = p := by
  have h0 : (0 : ℚ) ≤ (p : ℚ) := Nat.cast_nonneg p
  have h255 : (p : ℚ) ≤ 255 := by exact_mod_cast hp
  unfold toU8 clip255
  rw [min_eq_right h255, max_eq_right h0]
  rw [Int.floor_natCast, Int.toNat_natCast]

/-! ## Claim theorems -/

/-- C5: for every channel value and every level in [1, 100], the brightness
degradation multiplies the pixels by `brightness_factor level` and clamps to
the valid channel range, where the factor is `1 - (level/50)*0.8` (ranging
over [0.2, 1.0], darkening) for `level ≤ 50` and
`1 + ((level-50)/50)*1.5` (ranging over (1.0, 2.5], brightening) for
`level > 50`. -/
theorem brightness_formula_and_ranges (level p : ℕ)
    (h1 : 1 ≤ level) (h2 : level ≤ 100) :
    degrade_brightness level p = toU8 ((p : ℚ) * brightness_factor level) ∧
    (level ≤ 50 →
      brightness_factor level = 1 - ((level : ℚ) / 50) * (8/10) ∧
      1/5 ≤ brightness_factor level ∧ brightness_factor level ≤ 1) ∧
    (50 < level →
      brightness_factor level = 1 + (((level : ℚ) - 50) / 50) * (15/10) ∧
      1 < brightness_factor level ∧ brightness_factor level ≤ 5/2) := by
  refine ⟨?_, ?_, ?_⟩
  · have hne : level ≠ 0 := by omega
    simp [degrade_brightness, hne]
  · intro hle
    have hc1 : (1 : ℚ) ≤ (level : ℚ) := by exact_mod_cast h1
    have hc2 : (level : ℚ) ≤ 50 := by exact_mod_cast hle
    unfold brightness_factor
    rw [if_pos hle]
    refine ⟨rfl, by linarith, by linarith⟩
  · intro hgt
    have hle : ¬ level ≤ 50 := by omega
    have hc1 : (51 : ℚ) ≤ (level : ℚ) := by exact_mod_cast hgt
    have hc2 : (level : ℚ) ≤ 100 := by exact_mod_cast h2
    unfold brightness_factor
    rw [if_neg hle]
    refine ⟨rfl, by linarith, by linarith⟩

/-- Witness for C5: the brightness theorem instantiated at level 30 on
channel value 100. -/
theorem brightness_formula_and_ranges_witness :
    (degrade_brightness 30 100 = toU8 ((100 : ℚ) * brightness_factor 30) ∧
      (30 ≤ 50 →
        brightness_factor 30 = 1 - ((30 : ℚ) / 50) * (8/10) ∧
        1/5 ≤ brightness_factor 30 ∧ brightness_factor 30 ≤ 1) ∧
      (50 < 30 →
        brightness_factor 30 = 1 + (((30 : ℚ) - 50) / 50) * (15/10) ∧
        1 < brightness_factor 30 ∧ brightness_factor 30 ≤ 5/2)) ∧
    degrade_brightness 30 100 = 52 :=
  ⟨brightness_formula_and_ranges 30 100 (by norm_num) (by norm_num),
   by norm_num [degrade_brightness, brightness_factor, toU8, clip255]; decide⟩

/-- C7: for every parameter range, every band-curve assignment and every
total step count of at least two, the gradient sequencer returns exactly the
minimum parameter value at index 0 and exactly the maximum parameter value
at index `total - 1`, with no interpolation applied there. -/
theorem gradient_endpoints (curve : ℕ → ℚ) (total : ℕ) (lo hi : ℚ)
    (h : 2 ≤ total) :
    gradient_param curve total lo hi 0 = lo ∧
    gradient_param curve total lo hi (total - 1) = hi := by
  constructor
  · simp [gradient_param]
  · have h0 : total - 1 ≠ 0 := by omega
    simp [gradient_param, h0]

/-- Witness for C7: the endpoint theorem instantiated at `total = 100` with
the parameter range [3, 7] and a constant band curve. -/
theorem gradient_endpoints_witness :
    gradient_param (fun _ => 1/2) 100 3 7 0 = 3 ∧
    gradient_param (fun _ => 1/2) 100 3 7 (100 - 1) = 7 :=
  gradient_endpoints (fun _ => 1/2) 100 3 7 (by norm_num)

/-- C10: the resolution degradation resizes its downsampled intermediate
back to the original rows, columns and channel count; the pixelation
transform resizes back to the original PIL size; and the per-pixel contrast
degradation keeps the pixel count. -/
theorem output_dims_match_input (level : ℕ) (intensity : ℚ)
    (h w c : ℕ) (img : List ℕ) :
    degrade_resolution_dims level (h, w, c) = (h, w, c) ∧
    apply_pixelation_size intensity (w, h) = (w, h) ∧
    (degrade_contrast level img).length = img.length := by
  refine ⟨?_, ?_, ?_⟩
  · by_cases hl : level = 0 <;> simp [degrade_resolution_dims, cvResizeDims, hl]
  · simp [apply_pixelation_size, pilResizeSize]
  · by_cases hl : level = 0
    · simp [degrade_contrast, hl]
    · unfold degrade_contrast
      rw [if_neg hl]
      exact List.length_map _ _

/-- C4: at gradient level 0 the fast generator's Gaussian noise has
intensity `0/99 = 0`, hence standard deviation exactly 0, and the noise
added is exactly `0 * z = 0` for every standard-normal draw `z`; the same
holds for `apply_gaussian_noise` at intensity 0.  Every in-range channel
value is returned unchanged. -/
theorem gaussian_level_zero_identity (p : ℕ) (hp : p ≤ 255) (z : ℚ) :
    apply_noise_gradient 0 z p = p ∧ apply_gaussian_noise 0 z p = p := by
  constructor
  · show toU8 ((p : ℚ) + ((0 : ℕ) : ℚ) / 99 * 25 * z) = p
    rw [show ((p : ℚ) + ((0 : ℕ) : ℚ) / 99 * 25 * z) = (p : ℚ) by push_cast; ring]
    exact toU8_coe p hp
  · show toU8 ((p : ℚ) + 0 * 50 * z) = p
    rw [show ((p : ℚ) + 0 * 50 * z) = (p : ℚ) by ring]
    exact toU8_coe p hp

/-- Witness for C4: Gaussian noise at level 0 on channel value 200 with a
nonzero normal draw. -/
theorem gaussian_level_zero_identity_witness :
    apply_noise_gradient 0 (-3) 200 = 200 ∧ apply_gaussian_noise 0 (-3) 200 = 200 :=
  gaussian_level_zero_identity 200 (by norm_num) (-3)

/-- C1 (counterexample): the intensity-parameterized brightness variation is
not the identity at intensity 0: its factor is `0.3 + 0*1.4 = 0.3`, so
channel value 100 becomes 30, not 100. -/
theorem brightness_variation_not_identity_at_zero :
    apply_brightness_variation 0 100 = 30 ∧ apply_brightness_variation 0 100 ≠ 100 := by
  have h : apply_brightness_variation 0 100 = 30 := by
    norm_num [apply_brightness_variation, pil_enhance, toU8, clip255]
    decide
  exact ⟨h, by rw [h]; decide⟩

/-- C1 (amended): level/intensity 0 is the identity for the
`visual_degradation` kinds, which special-case level 0, and the Gaussian,
salt-and-pepper and speckle noise transforms inject exactly zero noise at
intensity 0 (but not the brightness/contrast/saturation variations, see the
counterexample, nor Poisson noise, whose rescaling divides by zero). -/
theorem level_zero_amended (p : ℕ) (hp : p ≤ 255) (px : BGR) (img : List ℕ)
    (z m : ℚ) (hm0 : 0 ≤ m) (hm1 : m < 1) :
    degrade_brightness 0 p = p ∧
    degrade_contrast 0 img = img ∧
    degrade_color_shift 0 px = px ∧
    apply_gaussian_noise 0 z p = p ∧
    apply_salt_pepper_noise 0 m p = p ∧
    apply_speckle_noise 0 z p = p := by
  refine ⟨by simp [degrade_brightness], by simp [degrade_contrast],
          by simp [degrade_color_shift], ?_, ?_, ?_⟩
  · show toU8 ((p : ℚ) + 0 * 50 * z) = p
    rw [show ((p : ℚ) + 0 * 50 * z) = (p : ℚ) by ring]
    exact toU8_coe p hp
  · show (if 1 - (0:ℚ) * (5/100) < m then (0:ℕ)
          else if m < (0:ℚ) * (5/100) then 255 else p) = p
    have hpep : ¬(1 - (0:ℚ) * (5/100) < m) := by
      rw [zero_mul, sub_zero]; exact not_lt.mpr hm1.le
    have hsalt : ¬(m < (0:ℚ) * (5/100)) := by
      rw [zero_mul]; exact not_lt.mpr hm0
    rw [if_neg hpep, if_neg hsalt]
  · show toU8 ((p : ℚ) + (p : ℚ) * (z * 0 * 20) / 100) = p
    rw [show ((p : ℚ) + (p : ℚ) * (z * 0 * 20) / 100) = (p : ℚ) by ring]
    exact toU8_coe p hp

/-- Witness for the amended C1, at channel value 100, pixel (1,2,3), a
one-pixel image, normal draw 7 and uniform mask draw 1/2. -/
theorem level_zero_amended_witness :
    degrade_brightness 0 100 = 100 ∧
    degrade_contrast 0 [5] = [5] ∧
    degrade_color_shift 0 ⟨1, 2, 3⟩ = ⟨1, 2, 3⟩ ∧
    apply_gaussian_noise 0 7 100 = 100 ∧
    apply_salt_pepper_noise 0 (1/2) 100 = 100 ∧
    apply_speckle_noise 0 7 100 = 100 :=
  level_zero_amended 100 (by norm_num) ⟨1, 2, 3⟩ [5] 7 (1/2)
    (by norm_num) (by norm_num)

/-- C3: at intensity 0 the Poisson transform's rescaling step divides by
zero (`poisson(pixel * 0 * 0.1) / (0 * 0.1)`), producing NaN rather than a
valid clamped channel value, while a positive intensity yields a valid
clamped value. -/
theorem poisson_zero_intensity_invalid :
    apply_poisson_noise 0 0 100 = none ∧
    apply_poisson_noise (1/2) 5 100 = some 100 := by
  constructor
  · simp [apply_poisson_noise]
  · norm_num [apply_poisson_noise, toU8, clip255]
    decide

/-- C8: for every in-range pixel and every level in [1, 100], the
color-shift degradation selects one of six channel-bias branches by
`level mod 6` with `shift_intensity = level/100`; the first three branches
amplify one channel by `(1 + intensity)` and attenuate another by
`(1 - intensity*0.3)`, the last three only attenuate one channel by
`(1 - intensity*0.5)`, and untouched channels pass through unchanged. -/
theorem color_shift_branch_constants (level : ℕ) (px : BGR)
    (h1 : 1 ≤ level) (h2 : level ≤ 100)
    (hb : px.b ≤ 255) (hg : px.g ≤ 255) (hr : px.r ≤ 255) :
    (level % 6 = 0 → degrade_color_shift level px =
      ⟨px.b, toU8 ((px.g : ℚ) * (1 - (level : ℚ)/100 * (3/10))),
       toU8 ((px.r : ℚ) * (1 + (level : ℚ)/100))⟩) ∧
    (level % 6 = 1 → degrade_color_shift level px =
      ⟨px.b, toU8 ((px.g : ℚ) * (1 + (level : ℚ)/100)),
       toU8 ((px.r : ℚ) * (1 - (level : ℚ)/100 * (3/10)))⟩) ∧
    (level % 6 = 2 → degrade_color_shift level px =
      ⟨toU8 ((px.b : ℚ) * (1 + (level : ℚ)/100)),
       toU8 ((px.g : ℚ) * (1 - (level : ℚ)/100 * (3/10))), px.r⟩) ∧
    (level % 6 = 3 → degrade_color_shift level px =
      ⟨toU8 ((px.b : ℚ) * (1 - (level : ℚ)/100 * (5/10))), px.g, px.r⟩) ∧
    (level % 6 = 4 → degrade_color_shift level px =
      ⟨px.b, px.g, toU8 ((px.r : ℚ) * (1 - (level : ℚ)/100 * (5/10)))⟩) ∧
    (level % 6 = 5 → degrade_color_shift level px =
      ⟨px.b, toU8 ((px.g : ℚ) * (1 - (level : ℚ)/100 * (5/10))), px.r⟩) := by
  have hne : level ≠ 0 := by omega
  refine ⟨?_, ?_, ?_, ?_, ?_, ?_⟩ <;> intro hm <;>
    simp [degrade_color_shift, hne, hm, toU8_coe px.b hb, toU8_coe px.g hg,
          toU8_coe px.r hr]

/-- Witness for C8: the branch theorem instantiated at level 9 (branch
`9 mod 6 = 3`, attenuate blue) on pixel (200, 100, 50). -/
theorem color_shift_branch_constants_witness :
    degrade_color_shift 9 ⟨200, 100, 50⟩ =
      ⟨toU8 ((200 : ℚ) * (1 - (9 : ℚ)/100 * (5/10))), 100, 50⟩ :=
  (color_shift_branch_constants 9 ⟨200, 100, 50⟩ (by norm_num) (by norm_num)
    (by norm_num) (by norm_num) (by norm_num)).2.2.2.1 (by norm_num)

/-- C9: the color-space transform rejects every input whose numpy shape is
not `(h, w, 3)` with the invalid-image-format error, for every matrix and
severity; a three-channel input never produces this error. -/
theorem colorblind_rejects_non_rgb (shape : List ℕ) (M : Mat3) (sev : ℚ)
    (data : ℕ → Vec3) :
    (¬ threeChannelShape shape →
      apply_colorblindness_matrix shape M sev data =
        Except.error "InvalidImageFormat") ∧
    (threeChannelShape shape →
      ∃ out, apply_colorblindness_matrix shape M sev data = Except.ok out) := by
  constructor <;> intro h
  · simp [apply_colorblindness_matrix, h]
  · refine ⟨(shape, fun i => apply_colorblindness_pixel M sev (data i)), ?_⟩
    simp [apply_colorblindness_matrix, h]

/-- Witness for C9: a two-dimensional (grayscale) shape is rejected and a
`(2, 2, 3)` RGB shape is accepted, with the basic protanopia matrix at
severity 1. -/
theorem colorblind_rejects_non_rgb_witness :
    apply_colorblindness_matrix [2, 2] protanopia_matrix 1 (fun _ => ⟨0, 0, 0⟩)
      = Except.error "InvalidImageFormat" ∧
    ∃ out, apply_colorblindness_matrix [2, 2, 3] protanopia_matrix 1
      (fun _ => ⟨0, 0, 0⟩) = Except.ok out :=
  ⟨(colorblind_rejects_non_rgb [2, 2] protanopia_matrix 1 (fun _ => ⟨0, 0, 0⟩)).1
     (by decide),
   (colorblind_rejects_non_rgb [2, 2, 3] protanopia_matrix 1 (fun _ => ⟨0, 0, 0⟩)).2
     (by decide)⟩

/-! ## Helper lemmas for the failure-threshold analysis -/

theorem fft_of_all_true (l : List (ℚ × Bool)) (h : ∀ x ∈ l, x.2 = true) :
    find_failure_threshold l = 1 := by
  induction l with
  | nil => rfl
  | cons a rest ih =>
    obtain ⟨sev, ok⟩ := a
    have ha : ok = true := h (sev, ok) (List.mem_cons_self _ _)
    subst ha
    rw [find_failure_threshold, if_pos rfl]
    exact ih (fun x hx => h x (List.mem_cons_of_mem _ hx))

theorem fft_append_of_all_true (l1 l2 : List (ℚ × Bool))
    (h : ∀ x ∈ l1, x.2 = true) :
    find_failure_threshold (l1 ++ l2) = find_failure_threshold l2 := by
  induction l1 with
  | nil => rfl
  | cons a rest ih =>
    obtain ⟨sev, ok⟩ := a
    have ha : ok = true := h (sev, ok) (List.mem_cons_self _ _)
    subst ha
    rw [List.cons_append, find_failure_threshold, if_pos rfl]
    exact ih (fun x hx => h x (List.mem_cons_of_mem _ hx))

theorem fft_cons_false (sev : ℚ) (rest : List (ℚ × Bool)) :
    find_failure_threshold ((sev, false) :: rest) = sev := by
  rw [find_failure_threshold]
  simp

/-- C2: the boundary analyzer's failure threshold over `n ≥ 2` tested steps
is the severity of the first step whose comparator result fails
`is_correct AND is_confident`; with a comparator that always returns
`(True, True)` it is 1, which is the severity of the maximum (last) level,
never null; with one that always returns `(False, False)` it is 0, the
severity of level 0. -/
theorem failure_threshold_first_false (c : ℕ → Bool × Bool) (n : ℕ)
    (hn : 2 ≤ n) :
    ((∀ s, s < n → stepSuccess c s = true) →
      find_failure_threshold (mkPredictions c n) = 1 ∧
      stepSeverity n (n - 1) = 1) ∧
    ((∀ s, c s = (false, false)) →
      find_failure_threshold (mkPredictions c n) = 0 ∧
      stepSeverity n 0 = 0) ∧
    (∀ k, k < n → stepSuccess c k = false →
      (∀ j, j < k → stepSuccess c j = true) →
      find_failure_threshold (mkPredictions c n) = stepSeverity n k) := by
  have hcast : ((n - 1 : ℕ) : ℚ) = (n : ℚ) - 1 := by
    push_cast [Nat.cast_sub (by omega : 1 ≤ n)]
    ring
  have hne : ((n : ℚ) - 1) ≠ 0 := by
    have : (2 : ℚ) ≤ (n : ℚ) := by exact_mod_cast hn
    intro hzero
    linarith [hzero]
  refine ⟨?_, ?_, ?_⟩
  · intro hc
    constructor
    · apply fft_of_all_true
      intro x hx
      rw [mkPredictions] at hx
      obtain ⟨s, hs, rfl⟩ := List.mem_map.mp hx
      exact hc s (List.mem_range.mp hs)
    · rw [stepSeverity, hcast, div_self hne]
  · intro hc
    constructor
    · obtain ⟨m, rfl⟩ : ∃ m, n = m + 1 := ⟨n - 1, by omega⟩
      rw [mkPredictions, List.range_succ_eq_map, List.map_cons]
      have h0 : stepSuccess c 0 = false := by simp [stepSuccess, hc 0]
      rw [h0, fft_cons_false, stepSeverity]
      simp
    · rw [stepSeverity]
      simp
  · intro k hk hfail hbefore
    obtain ⟨m, hm⟩ : ∃ m, n - k = m + 1 := ⟨n - k - 1, by omega⟩
    have hsplit : n = k + (m + 1) := by omega
    have hr : List.range n =
        List.range k ++ (List.range (m + 1)).map (k + ·) := by
      rw [hsplit, List.range_add]
    rw [mkPredictions, hr, List.map_append]
    rw [fft_append_of_all_true]
    · rw [List.range_succ_eq_map, List.map_cons, List.map_cons]
      have hk0 : k + 0 = k := by omega
      rw [hk0, hfail, fft_cons_false]
    · intro x hx
      obtain ⟨s, hs, rfl⟩ := List.mem_map.mp hx
      exact hbefore s (List.mem_range.mp hs)

/-- Witness for C2: the threshold theorem instantiated over 3 steps with
the always-correct-and-confident comparator (conjunct one) and, separately,
with a comparator that first fails at step 1. -/
theorem failure_threshold_first_false_witness :
    (find_failure_threshold (mkPredictions (fun _ => (true, true)) 3) = 1 ∧
      stepSeverity 3 (3 - 1) = 1) ∧
    find_failure_threshold
      (mkPredictions (fun s => (decide (s = 0), decide (s = 0))) 3) =
      stepSeverity 3 1 :=
  ⟨(failure_threshold_first_false (fun _ => (true, true)) 3 (by norm_num)).1
     (fun _ _ => rfl),
   (failure_threshold_first_false (fun s => (decide (s = 0), decide (s = 0))) 3
     (by norm_num)).2.2 1 (by norm_num) (by decide)
     (fun j hj => by interval_cases j; decide)⟩

/-! ## Helper lemmas for the gray fixed-point property -/

/-- Clipping to [0,1] never moves a value further from a point of [0,1]. -/
theorem abs_clip01_sub_le (x g : ℚ) (h0 : 0 ≤ g) (h1 : g ≤ 1) :
    |clip01 x - g| ≤ |x - g| := by
  unfold clip01
  rcases le_total x 0 with hx | hx
  · rw [min_eq_right (hx.trans (by norm_num)), max_eq_left hx]
    rw [abs_of_nonpos (by linarith), abs_of_nonpos (by linarith)]
    linarith
  · rcases le_total x 1 with hx1 | hx1
    · rw [min_eq_right hx1, max_eq_right hx]
    · rw [min_eq_left hx1, max_eq_right (by norm_num : (0:ℚ) ≤ 1)]
      rw [abs_of_nonneg (by linarith), abs_of_nonneg (by linarith)]
      linarith

/-- A matrix row whose entries sum to 1 within 1/100000 holds every
achromatic value fixed within 1/100000, even after clipping. -/
theorem row_near_identity_on_gray (a b c g : ℚ) (h0 : 0 ≤ g) (h1 : g ≤ 1)
    (hs : |a + b + c - 1| ≤ 1/100000) :
    |clip01 (a * g + b * g + c * g) - g| ≤ 1/100000 := by
  have h2 : a * g + b * g + c * g = g * (a + b + c) := by ring
  rw [h2]
  calc |clip01 (g * (a + b + c)) - g|
      ≤ |g * (a + b + c) - g| := abs_clip01_sub_le _ _ h0 h1
    _ = g * |a + b + c - 1| := by
        rw [show g * (a + b + c) - g = g * (a + b + c - 1) by ring,
            abs_mul, abs_of_nonneg h0]
    _ ≤ 1 * (1/100000) := by
        apply mul_le_mul h1 hs (abs_nonneg _) (by norm_num)
    _ = 1/100000 := by ring

/-- C6: every row of each of the six dichromacy matrices sums to 1 within
1/100000, so the color-space transform at severity 1.0 moves each channel
of an achromatic pixel `(g, g, g)` by at most 1/100000. -/
theorem gray_pixel_fixed_point (M : Mat3) (hM : M ∈ simulator_matrices)
    (g : ℚ) (h0 : 0 ≤ g) (h1 : g ≤ 1) :
    |(apply_colorblindness_pixel M 1 ⟨g, g, g⟩).x - g| ≤ 1/100000 ∧
    |(apply_colorblindness_pixel M 1 ⟨g, g, g⟩).y - g| ≤ 1/100000 ∧
    |(apply_colorblindness_pixel M 1 ⟨g, g, g⟩).z - g| ≤ 1/100000 := by
  have hlt : ¬ ((1 : ℚ) < 1) := lt_irrefl 1
  simp only [simulator_matrices, List.mem_cons, List.not_mem_nil, or_false] at hM
  rcases hM with rfl | rfl | rfl | rfl | rfl | rfl <;>
    · simp only [apply_colorblindness_pixel, matApply, dotv,
        protanopia_matrix, deuteranopia_matrix, tritanopia_matrix,
        improved_protanopia, improved_deuteranopia, improved_tritanopia,
        if_neg hlt]
      exact ⟨row_near_identity_on_gray _ _ _ g h0 h1 (by norm_num [abs_le]),
             row_near_identity_on_gray _ _ _ g h0 h1 (by norm_num [abs_le]),
             row_near_identity_on_gray _ _ _ g h0 h1 (by norm_num [abs_le])⟩

/-- Witness for C6: the gray fixed-point theorem at `g = 1/2` on the
improved protanopia matrix. -/
theorem gray_pixel_fixed_point_witness :
    |(apply_colorblindness_pixel improved_protanopia 1 ⟨1/2, 1/2, 1/2⟩).x - 1/2|
      ≤ 1/100000 ∧
    |(apply_colorblindness_pixel improved_protanopia 1 ⟨1/2, 1/2, 1/2⟩).y - 1/2|
      ≤ 1/100000 ∧
    |(apply_colorblindness_pixel improved_protanopia 1 ⟨1/2, 1/2, 1/2⟩).z - 1/2|
      ≤ 1/100000 :=
  gray_pixel_fixed_point improved_protanopia
    (by simp [simulator_matrices]) (1/2) (by norm_num) (by norm_num)

end VLMGen
